import Mathlib

/-!
# Edge-lit clock firmware (`Firmware/main.cpp`)

A shallow embedding of the firmware's digit table, shift-register output
protocol, two-timer scheduler and time resynchronisation, together with the
properties stated about them.

Conventions of the embedding
* Global variables of the sketch become fields of `State`; every call that is
  visible from outside the sketch (pin writes, serial prints, library calls)
  is appended to `State.trace` in program order.
* `unsigned long` is 32 bits wide on the ESP8266; the millisecond counter is a
  natural number below `2 ^ 32` and subtraction wraps modulo `2 ^ 32`.
* C characters are their integer codes (`'0'` is 48).
-/

namespace EdgeLit

/-! ## Pins and bus events -/

/-- The three output lines: `latchPin = 12`, `dataPin = 16`, `clockPin = 14`. -/
inductive Pin where
  | latchPin
  | dataPin
  | clockPin
  deriving DecidableEq, Repr

/-- Logic level `HIGH`. -/
abbrev HIGH : Bool := true

/-- Logic level `LOW`. -/
abbrev LOW : Bool := false

/-- Externally visible actions of the sketch, in the order they are performed. -/
inductive Event where
  /-- Call of `ArduinoOTA.handle()` -/
  | otaHandle
  /-- Call of `millis()` returning the given reading -/
  | millis (reading : Nat)
  /-- A `Serial.print`/`println`/`printf` call -/
  | serial
  /-- Entry into `displayDigit(digit)` -/
  | displayDigit (digit : Int)
  /-- Call of `digitalWrite(pin, level)` -/
  | digitalWrite (pin : Pin) (level : Bool)
  /-- Call of `timeClient.begin()` -/
  | ntpBegin
  /-- Call of `delay(ms)` -/
  | delay (ms : Nat)
  /-- Call of `timeClient.update()` with its boolean result -/
  | ntpUpdate (ok : Bool)
  /-- Call of `setTime(epoch)` -/
  | setTime (epoch : Int)
  /-- Call of `setupOTA()` -/
  | setupOTA
  deriving DecidableEq, Repr

/-! ## The digit table -/

/-- The table `bool cijfer[10][10]`; column 0 is bit 9, column 9 is bit 0. -/
def cijfer : List (List Bool) :=
  [ [false, false, false, false, false, false, false, false, false, true ],
    [false, false, false, false, true,  false, false, false, false, false],
    [false, false, false, false, false, true,  false, false, false, false],
    [false, false, false, true,  false, false, false, false, false, false],
    [false, false, false, false, false, false, true,  false, false, false],
    [false, false, true,  false, false, false, false, false, false, false],
    [false, false, false, false, false, false, false, true,  false, false],
    [false, true,  false, false, false, false, false, false, false, false],
    [false, false, false, false, false, false, false, false, true,  false],
    [true,  false, false, false, false, false, false, false, false, false] ]

/-- The row `cijfer[digit]`. An index outside `0..9` is undefined behaviour in
the source; the embedding yields the empty row there. -/
def cijferRow (digit : Int) : List Bool :=
  if 0 ≤ digit then cijfer.getD digit.toNat [] else []

/-- The entry `cijfer[digit][i]` (`false` outside the table). -/
def cijferAt (digit : Int) (i : Nat) : Bool :=
  (cijferRow digit).getD i false

/-- The wiring noted beside each row of `cijfer` ("Bit 0", "Bit 5", ...):
digit `d` lights the output bit `wiringBit d`. -/
def wiringBit (d : Nat) : Nat :=
  [0, 5, 4, 6, 3, 7, 2, 8, 1, 9].getD d 0

/-! ## Program state -/

/-- Global state of the sketch plus the levels of the three bus lines. -/
structure State where
  /-- Variable `unsigned long previousMillis_ntp` -/
  previousMillis_ntp : Nat
  /-- Variable `unsigned long previousMillis_time` -/
  previousMillis_time : Nat
  /-- The instant held by the time keeper (set by `setTime`, read by `now`) -/
  current_utc : Int
  /-- Level of the latch line (RCK) -/
  latch : Bool
  /-- Level of the data line (D) -/
  data : Bool
  /-- Level of the clock line (SCK) -/
  clock : Bool
  /-- Everything done so far, oldest first -/
  trace : List Event
  deriving DecidableEq, Repr

/-- Append one event to the trace. -/
def State.log (s : State) (e : Event) : State :=
  { s with trace := s.trace ++ [e] }

/-- The call `digitalWrite(pin, level)`. -/
def digitalWrite (pin : Pin) (level : Bool) (s : State) : State :=
  let s := s.log (Event.digitalWrite pin level)
  match pin with
  | Pin.latchPin => { s with latch := level }
  | Pin.dataPin => { s with data := level }
  | Pin.clockPin => { s with clock := level }

/-- Body of the `for` loop of `displayDigit` for loop index `i`. -/
def shiftBit (digit : Int) (s : State) (i : Nat) : State :=
  let s := digitalWrite Pin.dataPin (cijferAt digit i) s
  let s := digitalWrite Pin.clockPin HIGH s
  digitalWrite Pin.clockPin LOW s

/-- The function `void displayDigit(int digit)`. -/
def displayDigit (digit : Int) (s : State) : State :=
  let s := s.log (Event.displayDigit digit)
  let s := digitalWrite Pin.latchPin LOW s
  let s := (List.range 10).foldl (shiftBit digit) s
  digitalWrite Pin.latchPin HIGH s

/-- The three writes of one loop round of `displayDigit`. -/
def bitWrites (bit : Bool) : List Event :=
  [Event.digitalWrite Pin.dataPin bit,
   Event.digitalWrite Pin.clockPin HIGH,
   Event.digitalWrite Pin.clockPin LOW]

/-- The bus protocol for one digit: latch low, ten data/clock rounds in
increasing index order, latch high. -/
def digitWrites (digit : Int) : List Event :=
  [Event.digitalWrite Pin.latchPin LOW]
    ++ (List.range 10).flatMap (fun i => bitWrites (cijferAt digit i))
    ++ [Event.digitalWrite Pin.latchPin HIGH]

/-- What a register clocked by the clock line sees: starting from the given
clock and data levels, the data level at every rising edge of the clock. -/
def risingEdgeSamples : Bool → Bool → List Event → List Bool
  | _, _, [] => []
  | c, _, Event.digitalWrite Pin.dataPin v :: es => risingEdgeSamples c v es
  | c, d, Event.digitalWrite Pin.clockPin v :: es =>
      if c = LOW ∧ v = HIGH then d :: risingEdgeSamples v d es
      else risingEdgeSamples v d es
  | c, d, _ :: es => risingEdgeSamples c d es

/-! ## Calendar arithmetic

The sketch leaves the calendar to libraries that are not part of the sources:
`localtime`/`strftime` of the C library and the Timezone library. Both rest on
the Gregorian calendar, fixed here. Days are counted from 1970-01-01 (day 0, a
Thursday). -/

/-- Gregorian leap-year rule. -/
def isLeapYear (y : Nat) : Bool :=
  (y % 4 == 0 && y % 100 != 0) || y % 400 == 0

/-- Number of days of year `y`. -/
def daysInYear (y : Nat) : Nat :=
  if isLeapYear y then 366 else 365

/-- Number of days of month `m` (1 = January) of year `y`. -/
def daysInMonth (y m : Nat) : Nat :=
  match m with
  | 2 => if isLeapYear y then 29 else 28
  | 4 => 30
  | 6 => 30
  | 9 => 30
  | 11 => 30
  | _ => 31

/-- Days of year `y` that precede the first of month `m` (1 = January). -/
def daysBeforeMonth (y : Nat) : Nat → Nat
  | 0 => 0
  | 1 => 0
  | m + 2 => daysBeforeMonth y (m + 1) + daysInMonth y (m + 1)

/-- Days in the `n` years starting with 1970. -/
def daysOfYearsFrom1970 : Nat → Nat
  | 0 => 0
  | n + 1 => daysOfYearsFrom1970 n + daysInYear (1970 + n)

/-- Day number of 1 January of year `y` (for `y ≥ 1970`). -/
def daysBeforeYear (y : Nat) : Nat :=
  daysOfYearsFrom1970 (y - 1970)

/-- Day number of the civil date `y`-`m`-`d`. -/
def daysFromCivil (y m d : Nat) : Nat :=
  daysBeforeYear y + daysBeforeMonth y m + (d - 1)

/-- Walk forward year by year: from year `y` with `days` days left, the year
reached and the zero-based day within it. -/
def yearLoop : Nat → Nat → Nat → Nat × Nat
  | 0, y, days => (y, days)
  | fuel + 1, y, days =>
      if days < daysInYear y then (y, days)
      else yearLoop fuel (y + 1) (days - daysInYear y)

/-- Walk forward month by month within year `y`: the month reached and the
zero-based day within it. -/
def monthLoop (y : Nat) : Nat → Nat → Nat → Nat × Nat
  | 0, m, days => (m, days)
  | fuel + 1, m, days =>
      if days < daysInMonth y m then (m, days)
      else monthLoop y fuel (m + 1) (days - daysInMonth y m)

/-- Year and zero-based day of the year of a day number. -/
def yearAndDay (days : Nat) : Nat × Nat :=
  yearLoop (days / 365 + 1) 1970 days

/-- Modelled from the spec: the year lookup of the Timezone library is not part
of the sources. Spec section 4.1: "the calendar year containing `utc_instant`",
for an instant `t` in seconds since the epoch. Instants before the epoch are
outside the model and count as the epoch. -/
def yearOf (t : Int) : Nat :=
  (yearAndDay (t.toNat / 86400)).1

/-- Day of the week of a day number, 1 = Sunday ... 7 = Saturday. -/
def weekday (days : Nat) : Nat :=
  (days + 4) % 7 + 1

/-! ## Time zone rules -/

/-- Week-of-month ordinal of a transition rule. -/
inductive Week where
  | Last
  | First
  | Second
  | Third
  | Fourth
  deriving DecidableEq, Repr

/-- Zero-based index of an ordinal other than `Last`. -/
def Week.index : Week → Nat
  | Week.Last => 0
  | Week.First => 0
  | Week.Second => 1
  | Week.Third => 2
  | Week.Fourth => 3

/-- Weekday code of Sunday. -/
abbrev Sun : Nat := 1

/-- Month code of March. -/
abbrev Mar : Nat := 3

/-- Month code of October. -/
abbrev Oct : Nat := 10

/-- Modelled from the spec: the type `TimeChangeRule` comes from `Timezone.h`,
which is not part of the sources. Spec section 3: a TransitionRule is
{name, week-of-month ordinal (including "last"), weekday, month, hour-of-day,
UTC-offset-minutes}. -/
structure TimeChangeRule where
  name : String
  week : Week
  dow : Nat
  month : Nat
  hour : Nat
  offset : Int
  deriving DecidableEq, Repr

/-- Modelled from the spec: the class `Timezone` comes from `Timezone.h`, which
is not part of the sources. Spec section 3: two rules (daylight, standard)
define a Timezone. -/
structure Timezone where
  dst : TimeChangeRule
  std : TimeChangeRule
  deriving DecidableEq, Repr

/-- The rule `TimeChangeRule CEST = {"CEST", Last, Sun, Mar, 2, 120}`. -/
def CEST : TimeChangeRule := ⟨"CEST", Week.Last, Sun, Mar, 2, 120⟩

/-- The rule `TimeChangeRule CET = {"CET ", Last, Sun, Oct, 3, 60}`. -/
def CET : TimeChangeRule := ⟨"CET ", Week.Last, Sun, Oct, 3, 60⟩

/-- The zone `Timezone CE(CEST, CET)`. -/
def CE : Timezone := ⟨CEST, CET⟩

/-- Modelled from the spec: rule resolution lives in the Timezone library, which
is not part of the sources. Spec section 4.1: resolve "last Sunday of month X"
to an absolute date for that year. For `Last` this is the last day of the month
stepped back to the rule's weekday; for the other ordinals it is the first such
weekday of the month plus whole weeks. -/
def ruleDay (r : TimeChangeRule) (y : Nat) : Nat :=
  match r.week with
  | Week.Last =>
      let lastDay := daysFromCivil y r.month (daysInMonth y r.month)
      lastDay - (weekday lastDay + 7 - r.dow) % 7
  | w =>
      let firstDay := daysFromCivil y r.month 1
      firstDay + (r.dow + 7 - weekday firstDay) % 7 + 7 * w.index

/-- Modelled from the spec: transition instants are computed by the Timezone
library, which is not part of the sources. Spec section 4.1: the transition of
rule `r` in year `y` is its date at hour `r.hour` of the wall clock that is in
effect just before the switch, i.e. with the offset of the previous rule
`prev` removed. -/
def transitionUTC (r prev : TimeChangeRule) (y : Nat) : Int :=
  (ruleDay r y : Int) * 86400 + (r.hour : Int) * 3600 - prev.offset * 60

/-- Modelled from the spec: which rule is in effect is decided by the Timezone
library, which is not part of the sources. Spec section 4.1: daylight time is in
effect when the instant falls in [daylight-transition, standard-transition) of
its calendar year, or in the complement of [standard-transition,
daylight-transition) when the standard transition comes first in the year. -/
def utcIsDST (tz : Timezone) (utc : Int) : Bool :=
  let y := yearOf utc
  let dstT := transitionUTC tz.dst tz.std y
  let stdT := transitionUTC tz.std tz.dst y
  if dstT ≤ stdT then decide (dstT ≤ utc ∧ utc < stdT)
  else !decide (stdT ≤ utc ∧ utc < dstT)

/-- Modelled from the spec: `Timezone::toLocal` is not part of the sources.
Spec section 4.1: apply the UTC-offset-minutes of the rule in effect. -/
def toLocal (tz : Timezone) (utc : Int) : Int :=
  utc + (if utcIsDST tz utc then tz.dst.offset else tz.std.offset) * 60

/-! ## Formatting the local time -/

/-- The fields of `struct tm` that the format string reads. -/
structure Tm where
  tm_sec : Nat
  tm_min : Nat
  tm_hour : Nat
  tm_mday : Nat
  tm_mon : Nat
  tm_year : Nat
  deriving DecidableEq, Repr

/-- The function `getDateTimeByParams(long time)`: `localtime` of the C library
with no time zone configured, i.e. the UTC calendar breakdown. Instants before
the epoch are outside the model and count as the epoch. -/
def getDateTimeByParams (time : Int) : Tm :=
  let t := time.toNat
  let yd := yearAndDay (t / 86400)
  let md := monthLoop yd.1 11 1 yd.2
  { tm_sec := t % 60
    tm_min := t / 60 % 60
    tm_hour := t / 3600 % 24
    tm_mday := md.2 + 1
    tm_mon := md.1 - 1
    tm_year := yd.1 - 1900 }

/-- Two decimal digits with leading zero, as character codes (`%d`, `%m`,
`%H`, `%M`, `%S`). -/
def pad2 (n : Nat) : List Nat :=
  [48 + n / 10 % 10, 48 + n % 10]

/-- Decimal digits of `n`, most significant first, as character codes. -/
def decimalLoop : Nat → Nat → List Nat → List Nat
  | 0, _, acc => acc
  | fuel + 1, n, acc =>
      if n < 10 then (48 + n) :: acc
      else decimalLoop fuel (n / 10) ((48 + n % 10) :: acc)

/-- The year as printed by `%Y`. -/
def decimal (n : Nat) : List Nat :=
  decimalLoop (n + 1) n []

/-- The function `getDateTimeStringByParams(tm *newtime, pattern)` with the
default pattern `"%d-%m-%Y %H:%M:%S"`: the `strftime` output as character
codes (`'-'` is 45, `' '` is 32, `':'` is 58). -/
def getDateTimeStringByParams (newtime : Tm) : List Nat :=
  pad2 newtime.tm_mday ++ [45] ++ pad2 (newtime.tm_mon + 1) ++ [45]
    ++ decimal (newtime.tm_year + 1900) ++ [32]
    ++ pad2 newtime.tm_hour ++ [58] ++ pad2 newtime.tm_min ++ [58]
    ++ pad2 newtime.tm_sec

/-- The function `getEpochStringByParams(long time, pattern)` with the default
pattern. -/
def getEpochStringByParams (time : Int) : List Nat :=
  getDateTimeStringByParams (getDateTimeByParams time)

/-- The character `str[i]` of an Arduino `String` (0 past the end). -/
def charAt (str : List Nat) (i : Nat) : Nat :=
  str.getD i 0

/-! ## Time keeping, display refresh and resynchronisation -/

/-- Modelled from the spec: `now()` belongs to the TimeLib library, which is not
part of the sources. Spec section 2: the TimeKeeper owns the current UTC
instant and exposes it as "now". -/
def now (s : State) : Int :=
  s.current_utc

/-- Modelled from the spec: `setTime` belongs to the TimeLib library, which is
not part of the sources. Spec section 3: `current_utc` is overwritten wholesale
on each successful resync. -/
def setTime (epoch : Int) (s : State) : State :=
  { s.log (Event.setTime epoch) with current_utc := epoch }

/-- The function `void display_time()`. -/
def display_time (s : State) : State :=
  let time_now := getEpochStringByParams (toLocal CE (now s))
  let s := displayDigit ((charAt time_now 15 : Int) - 48) s
  let s := displayDigit ((charAt time_now 14 : Int) - 48) s
  let s := displayDigit ((charAt time_now 12 : Int) - 48) s
  displayDigit ((charAt time_now 11 : Int) - 48) s

/-- The function `void update_NTP()`. The argument is what the time client
delivers: `none` when `timeClient.update()` returns false, `some epoch` when it
returns true and `timeClient.getEpochTime()` returns `epoch`. -/
def update_NTP (fetch : Option Nat) (s : State) : State :=
  let s := s.log Event.serial
  let s := s.log Event.serial
  let s := s.log Event.ntpBegin
  let s := s.log (Event.delay 1000)
  match fetch with
  | some epoch =>
      let s := s.log (Event.ntpUpdate true)
      let s := s.log Event.serial
      setTime (epoch : Int) s
  | none =>
      let s := s.log (Event.ntpUpdate false)
      s.log Event.serial

/-! ## The scheduler -/

/-- The constant `interval_ntp`. -/
def interval_ntp : Nat := 120000

/-- The constant `interval_time`. -/
def interval_time : Nat := 60000

/-- Subtraction of `w`-bit unsigned integers: `a - b` modulo `2 ^ w`. -/
def unsignedSub (w a b : Nat) : Nat :=
  (a % 2 ^ w + 2 ^ w - b % 2 ^ w) % 2 ^ w

/-- The timer test `now - last >= interval` on `w`-bit unsigned timestamps. -/
def timerFires (w now last interval : Nat) : Bool :=
  decide (interval ≤ unsignedSub w now last)

/-- What the environment supplies to one pass of `loop`. -/
structure LoopInput where
  /-- The value returned by `millis()` -/
  currentMillis : Nat
  /-- What the time client delivers if `update_NTP` runs -/
  fetch : Option Nat
  deriving DecidableEq, Repr

/-- Lines 177-184 of `loop`: everything before the unconditional latch write. -/
def loopBeforeLatch (inp : LoopInput) (s : State) : State :=
  let s := s.log Event.otaHandle
  let currentMillis := inp.currentMillis
  let s := s.log (Event.millis currentMillis)
  if timerFires 32 currentMillis s.previousMillis_time interval_time then
    let s := s.log Event.serial
    let s := display_time s
    { s with previousMillis_time := currentMillis }
  else s

/-- The function `void loop()`. -/
def loop (inp : LoopInput) (s : State) : State :=
  let s := loopBeforeLatch inp s
  let currentMillis := inp.currentMillis
  let s := digitalWrite Pin.latchPin HIGH s
  if timerFires 32 currentMillis s.previousMillis_ntp interval_ntp then
    let s := update_NTP inp.fetch s
    { s with previousMillis_ntp := currentMillis }
  else s

/-- What the environment supplies to `setup`. -/
structure SetupInput where
  /-- How often `WiFi.status()` is polled unsuccessfully before the link is up -/
  wifiPolls : Nat
  /-- What the time client delivers on the first synchronisation -/
  fetch : Option Nat
  deriving DecidableEq, Repr

/-- One round of the wait loop of `setup`: `delay(500); Serial.print(".")`. -/
def wifiWait : Nat → State → State
  | 0, s => s
  | n + 1, s => wifiWait n ((s.log (Event.delay 500)).log Event.serial)

/-- The function `void setup()`. -/
def setup (inp : SetupInput) (s : State) : State :=
  let s := displayDigit 9 s
  let s := displayDigit 9 s
  let s := displayDigit 9 s
  let s := displayDigit 9 s
  let s := wifiWait inp.wifiPolls s
  let s := s.log Event.serial
  let s := s.log Event.serial
  let s := s.log Event.ntpBegin
  let s := s.log (Event.delay 1000)
  let s :=
    match inp.fetch with
    | some epoch =>
        let s := s.log (Event.ntpUpdate true)
        let s := s.log Event.serial
        setTime (epoch : Int) s
    | none =>
        let s := s.log (Event.ntpUpdate false)
        s.log Event.serial
  let s := s.log Event.setupOTA
  let s := s.log Event.serial
  s.log Event.serial

/-- The state when `setup` is entered: both timers zero (their initialisers),
time keeper zero, the three lines at the given levels, nothing done yet. -/
def boot (latch data clock : Bool) : State :=
  { previousMillis_ntp := 0, previousMillis_time := 0, current_utc := 0,
    latch := latch, data := data, clock := clock, trace := [] }

/-- Run `loop` once per input, in order. -/
def run (inputs : List LoopInput) (s : State) : State :=
  inputs.foldl (fun s inp => loop inp s) s

/-- The events a step appended: the trace of `after` beyond that of `before`. -/
def newEvents (before after : State) : List Event :=
  after.trace.drop before.trace.length

/-- The arguments of the `displayDigit` calls in a list of events, in order. -/
def digitCalls : List Event → List Int
  | [] => []
  | Event.displayDigit d :: es => d :: digitCalls es
  | _ :: es => digitCalls es

/-- Whether an event is a write to one of the bus lines. -/
def Event.isBusWrite : Event → Bool
  | Event.digitalWrite _ _ => true
  | _ => false

/-- Whether an event is a `displayDigit` call. -/
def Event.isDigitCall : Event → Bool
  | Event.displayDigit _ => true
  | _ => false

/-- Whether an event is a `setTime` call. -/
def Event.isSetTime : Event → Bool
  | Event.setTime _ => true
  | _ => false

/-- Whether an event belongs to the resynchronisation: the time client calls
`timeClient.begin()` and `timeClient.update()`, the settling `delay`, and the
`setTime` that overwrites the time keeper. -/
def Event.isResync : Event → Bool
  | Event.ntpBegin => true
  | Event.delay _ => true
  | Event.ntpUpdate _ => true
  | Event.setTime _ => true
  | _ => false

/-- Whether an event is a reading of the millisecond clock. -/
def Event.isMillis : Event → Bool
  | Event.millis _ => true
  | _ => false

/-- Whether an event is the maintenance-service call. -/
def Event.isOtaHandle : Event → Bool
  | Event.otaHandle => true
  | _ => false

/-- The argument `display_time` passes to `displayDigit` for string index `i`:
`(int)(time_now[i] - 48)`. -/
def timeDigit (s : State) (i : Nat) : Int :=
  (charAt (getEpochStringByParams (toLocal CE (now s))) i : Int) - 48

/-- The events of one `displayDigit digit` call. -/
def digitEvents (digit : Int) : List Event :=
  Event.displayDigit digit :: digitWrites digit

/-- The events of one `display_time` call from state `s`. -/
def displayEvents (s : State) : List Event :=
  digitEvents (timeDigit s 15) ++ digitEvents (timeDigit s 14)
    ++ digitEvents (timeDigit s 12) ++ digitEvents (timeDigit s 11)

/-- The events of one `update_NTP` call, by what the time client delivers. -/
def ntpEvents (fetch : Option Nat) : List Event :=
  [Event.serial, Event.serial, Event.ntpBegin, Event.delay 1000]
    ++ (match fetch with
        | some epoch => [Event.ntpUpdate true, Event.serial, Event.setTime (epoch : Int)]
        | none => [Event.ntpUpdate false, Event.serial])

/-! ## Auxiliary facts: traces and levels -/

theorem range_ten : List.range 10 = [0, 1, 2, 3, 4, 5, 6, 7, 8, 9] := by decide

theorem displayDigit_eq (digit : Int) (s : State) :
    displayDigit digit s =
      { s with latch := HIGH, data := cijferAt digit 9, clock := LOW,
               trace := s.trace ++ Event.displayDigit digit :: digitWrites digit } := by
  simp [displayDigit, digitWrites, bitWrites, range_ten, shiftBit, digitalWrite, State.log]

theorem newEvents_append (s t : State) (es : List Event) (h : t.trace = s.trace ++ es) :
    newEvents s t = es := by
  simp [newEvents, h]

theorem cijferRow_eq_map :
    ∀ d : Fin 10, (List.range 10).map (cijferAt d.val) = cijferRow d.val := by
  decide

theorem cijferRow_length : ∀ d : Fin 10, (cijferRow d.val).length = 10 := by
  decide

theorem display_time_eq (s : State) :
    display_time s =
      { s with latch := HIGH, data := cijferAt (timeDigit s 11) 9, clock := LOW,
               trace := s.trace ++ displayEvents s } := by
  simp [display_time, displayDigit_eq, timeDigit, displayEvents, digitEvents]

theorem update_NTP_eq (fetch : Option Nat) (s : State) :
    update_NTP fetch s =
      { s with current_utc := (match fetch with
                               | some epoch => (epoch : Int)
                               | none => s.current_utc),
               trace := s.trace ++ ntpEvents fetch } := by
  cases fetch <;> simp [update_NTP, ntpEvents, setTime, State.log]

theorem loop_eq (inp : LoopInput) (s : State) :
    loop inp s =
      { previousMillis_ntp :=
          if timerFires 32 inp.currentMillis s.previousMillis_ntp interval_ntp
          then inp.currentMillis else s.previousMillis_ntp,
        previousMillis_time :=
          if timerFires 32 inp.currentMillis s.previousMillis_time interval_time
          then inp.currentMillis else s.previousMillis_time,
        current_utc :=
          if timerFires 32 inp.currentMillis s.previousMillis_ntp interval_ntp
          then (match inp.fetch with
                | some epoch => (epoch : Int)
                | none => s.current_utc)
          else s.current_utc,
        latch := HIGH,
        data :=
          if timerFires 32 inp.currentMillis s.previousMillis_time interval_time
          then cijferAt (timeDigit s 11) 9 else s.data,
        clock :=
          if timerFires 32 inp.currentMillis s.previousMillis_time interval_time
          then LOW else s.clock,
        trace :=
          s.trace ++ Event.otaHandle :: Event.millis inp.currentMillis ::
            ((if timerFires 32 inp.currentMillis s.previousMillis_time interval_time
              then Event.serial :: displayEvents s else [])
             ++ Event.digitalWrite Pin.latchPin HIGH ::
               (if timerFires 32 inp.currentMillis s.previousMillis_ntp interval_ntp
                then ntpEvents inp.fetch else [])) } := by
  unfold loop loopBeforeLatch
  by_cases ha : timerFires 32 inp.currentMillis s.previousMillis_time interval_time = true <;>
  by_cases hb : timerFires 32 inp.currentMillis s.previousMillis_ntp interval_ntp = true <;>
  simp [ha, hb, State.log, display_time_eq, update_NTP_eq, digitalWrite, displayEvents,
    timeDigit, now]

theorem digitCalls_append (a b : List Event) :
    digitCalls (a ++ b) = digitCalls a ++ digitCalls b := by
  induction a with
  | nil => rfl
  | cons e es ih => cases e <;> simp [digitCalls, ih]

theorem digitCalls_digitEvents (d : Int) : digitCalls (digitEvents d) = [d] := by
  simp [digitEvents, digitWrites, bitWrites, range_ten, digitCalls]

theorem digitCalls_displayEvents (s : State) :
    digitCalls (displayEvents s)
      = [timeDigit s 15, timeDigit s 14, timeDigit s 12, timeDigit s 11] := by
  simp [displayEvents, digitCalls_append, digitCalls_digitEvents]

theorem display_time_calls (s : State) :
    digitCalls (newEvents s (display_time s))
      = [timeDigit s 15, timeDigit s 14, timeDigit s 12, timeDigit s 11] := by
  rw [newEvents_append s (display_time s) (displayEvents s) (by rw [display_time_eq])]
  exact digitCalls_displayEvents s

theorem busWrites_digitEvents (d : Int) :
    ((digitEvents d).filter Event.isBusWrite).length = 32 := by
  simp [digitEvents, digitWrites, bitWrites, range_ten, Event.isBusWrite]

theorem ota_digitEvents (d : Int) : (digitEvents d).filter Event.isOtaHandle = [] := by
  simp [digitEvents, digitWrites, bitWrites, range_ten, Event.isOtaHandle]

theorem millis_digitEvents (d : Int) : (digitEvents d).filter Event.isMillis = [] := by
  simp [digitEvents, digitWrites, bitWrites, range_ten, Event.isMillis]

theorem busWrites_displayEvents (s : State) :
    ((displayEvents s).filter Event.isBusWrite).length = 128 := by
  simp [displayEvents, busWrites_digitEvents]

theorem resync_digitEvents (d : Int) : (digitEvents d).filter Event.isResync = [] := by
  simp [digitEvents, digitWrites, bitWrites, range_ten, Event.isResync]

theorem resync_displayEvents (s : State) :
    (displayEvents s).filter Event.isResync = [] := by
  simp [displayEvents, resync_digitEvents]

theorem digitCalls_ntpEvents (fetch : Option Nat) : digitCalls (ntpEvents fetch) = [] := by
  cases fetch <;> simp [ntpEvents, digitCalls]

theorem busWrites_ntpEvents (fetch : Option Nat) :
    (ntpEvents fetch).filter Event.isBusWrite = [] := by
  cases fetch <;> simp [ntpEvents, Event.isBusWrite]

theorem ota_displayEvents (s : State) :
    (displayEvents s).filter Event.isOtaHandle = [] := by
  simp [displayEvents, ota_digitEvents]

theorem ota_ntpEvents (fetch : Option Nat) :
    (ntpEvents fetch).filter Event.isOtaHandle = [] := by
  cases fetch <;> simp [ntpEvents, Event.isOtaHandle]

theorem wifiWait_latch (n : Nat) (s : State) : (wifiWait n s).latch = s.latch := by
  induction n generalizing s with
  | zero => rfl
  | succ n ih => simp [wifiWait, ih, State.log]

theorem setup_latch (b : SetupInput) (s : State) : (setup b s).latch = HIGH := by
  unfold setup
  cases b.fetch <;> simp [State.log, setTime, wifiWait_latch, displayDigit_eq]

theorem run_latch (inputs : List LoopInput) (s : State) (h : s.latch = HIGH) :
    (run inputs s).latch = HIGH := by
  induction inputs generalizing s with
  | nil => exact h
  | cons inp rest ih =>
      simp only [run, List.foldl_cons]
      exact ih (loop inp s) (by rw [loop_eq])

theorem loopBeforeLatch_latch (inp : LoopInput) (s : State) (h : s.latch = HIGH) :
    (loopBeforeLatch inp s).latch = HIGH := by
  unfold loopBeforeLatch
  by_cases ha : timerFires 32 inp.currentMillis s.previousMillis_time interval_time = true
  · simp [ha, State.log, display_time_eq]
  · simp [ha, State.log, h]

theorem wifiWait_clock (n : Nat) (s : State) : (wifiWait n s).clock = s.clock := by
  induction n generalizing s with
  | zero => rfl
  | succ n ih => simp [wifiWait, ih, State.log]

theorem setup_clock (b : SetupInput) (s : State) : (setup b s).clock = LOW := by
  unfold setup
  cases b.fetch <;> simp [State.log, setTime, wifiWait_clock, displayDigit_eq]

theorem run_clock (inputs : List LoopInput) (s : State) (h : s.clock = LOW) :
    (run inputs s).clock = LOW := by
  induction inputs generalizing s with
  | nil => exact h
  | cons inp rest ih =>
      simp only [run, List.foldl_cons]
      refine ih (loop inp s) ?_
      rw [loop_eq]
      by_cases ha : timerFires 32 inp.currentMillis s.previousMillis_time interval_time = true
      · simp [ha]
      · simp [ha, h]


/-! ## Auxiliary facts: timer arithmetic -/

theorem unsignedSub_add (w L e : Nat) (hL : L < 2 ^ w) (he : e < 2 ^ w) :
    unsignedSub w ((L + e) % 2 ^ w) L = e := by
  unfold unsignedSub
  rw [Nat.mod_mod, Nat.mod_eq_of_lt hL]
  rcases Nat.lt_or_ge (L + e) (2 ^ w) with h | h
  · rw [Nat.mod_eq_of_lt h]
    have : L + e + 2 ^ w - L = e + 2 ^ w := by omega
    rw [this, Nat.add_mod_right, Nat.mod_eq_of_lt he]
  · have h2 : (L + e) % 2 ^ w = L + e - 2 ^ w := by
      rw [Nat.mod_eq_sub_mod h]
      exact Nat.mod_eq_of_lt (by omega)
    rw [h2]
    have : L + e - 2 ^ w + 2 ^ w - L = e := by omega
    rw [this, Nat.mod_eq_of_lt he]


/-! ## Auxiliary facts: calendar and formatting -/

theorem daysInYear_cases (y : Nat) : daysInYear y = 365 ∨ daysInYear y = 366 := by
  unfold daysInYear
  split <;> simp

theorem daysOfYears_mono (a b : Nat) :
    daysOfYearsFrom1970 a ≤ daysOfYearsFrom1970 (a + b) := by
  induction b with
  | zero => exact Nat.le_refl _
  | succ b ih =>
      have : a + (b + 1) = (a + b) + 1 := by omega
      rw [this, daysOfYearsFrom1970]
      omega

theorem daysOfYears_ge (n : Nat) : 365 * n ≤ daysOfYearsFrom1970 n := by
  induction n with
  | zero => simp [daysOfYearsFrom1970]
  | succ n ih =>
      rw [daysOfYearsFrom1970]
      rcases daysInYear_cases (1970 + n) with h | h <;> omega

theorem yearLoop_spec (n : Nat) :
    ∀ (k fuel r : Nat), n < fuel → r < daysInYear (1970 + k + n) →
      yearLoop fuel (1970 + k)
          (daysOfYearsFrom1970 (k + n) - daysOfYearsFrom1970 k + r)
        = (1970 + k + n, r) := by
  induction n with
  | zero =>
      intro k fuel r hf hr
      obtain ⟨f, rfl⟩ : ∃ f, fuel = f + 1 := ⟨fuel - 1, by omega⟩
      simp only [Nat.add_zero] at hr ⊢
      simp [yearLoop, hr]
  | succ n ih =>
      intro k fuel r hf hr
      obtain ⟨f, rfl⟩ : ∃ f, fuel = f + 1 := ⟨fuel - 1, by omega⟩
      have hstep : daysOfYearsFrom1970 (k + 1) = daysOfYearsFrom1970 k + daysInYear (1970 + k) := by
        rw [daysOfYearsFrom1970]
      have hmono := daysOfYears_mono (k + 1) n
      have hidx : k + (n + 1) = k + 1 + n := by omega
      rw [hidx]
      have hnot : ¬ (daysOfYearsFrom1970 (k + 1 + n) - daysOfYearsFrom1970 k + r
          < daysInYear (1970 + k)) := by omega
      rw [yearLoop, if_neg hnot]
      have hrem : daysOfYearsFrom1970 (k + 1 + n) - daysOfYearsFrom1970 k + r
            - daysInYear (1970 + k)
          = daysOfYearsFrom1970 (k + 1 + n) - daysOfYearsFrom1970 (k + 1) + r := by omega
      rw [hrem]
      have hy : 1970 + k + (n + 1) = 1970 + (k + 1) + n := by omega
      have hy2 : 1970 + k + 1 = 1970 + (k + 1) := by omega
      rw [hy] at hr ⊢
      rw [hy2]
      exact ih (k + 1) f r (by omega) hr

theorem yearAndDay_spec (Y r : Nat) (hY : 1970 ≤ Y) (hr : r < daysInYear Y) :
    yearAndDay (daysBeforeYear Y + r) = (Y, r) := by
  obtain ⟨n, rfl⟩ : ∃ n, Y = 1970 + n := ⟨Y - 1970, by omega⟩
  have hge := daysOfYears_ge n
  have h := yearLoop_spec n 0 ((daysOfYearsFrom1970 n + r) / 365 + 1) r
    (by omega) (by simpa using hr)
  simp only [Nat.zero_add, Nat.add_zero, daysOfYearsFrom1970, Nat.sub_zero] at h
  unfold yearAndDay daysBeforeYear
  simpa using h

theorem yearOf_spec (Y r sec : Nat) (hY : 1970 ≤ Y) (hr : r < daysInYear Y)
    (hsec : sec < 86400) :
    yearOf (((daysBeforeYear Y + r : Nat) : Int) * 86400 + (sec : Int)) = Y := by
  unfold yearOf
  have hcast : (((daysBeforeYear Y + r : Nat) : Int) * 86400 + (sec : Int)).toNat
      = (daysBeforeYear Y + r) * 86400 + sec := by
    omega
  rw [hcast]
  have hdiv : ((daysBeforeYear Y + r) * 86400 + sec) / 86400 = daysBeforeYear Y + r := by
    omega
  rw [hdiv, yearAndDay_spec Y r hY hr]

theorem daysBeforeMonth_mar (y : Nat) :
    daysBeforeMonth y 3 = if isLeapYear y then 60 else 59 := by
  simp only [daysBeforeMonth, daysInMonth]
  split <;> rfl

theorem daysBeforeMonth_oct (y : Nat) :
    daysBeforeMonth y 10 = if isLeapYear y then 274 else 273 := by
  simp only [daysBeforeMonth, daysInMonth]
  split <;> rfl

theorem ruleDay_CEST (Y : Nat) :
    ruleDay CEST Y = daysFromCivil Y Mar (31 - (daysFromCivil Y Mar 31 + 4) % 7) ∧
    weekday (daysFromCivil Y Mar (31 - (daysFromCivil Y Mar 31 + 4) % 7)) = Sun := by
  have hm : daysInMonth Y 3 = 31 := rfl
  simp only [ruleDay, CEST, Mar, Sun, hm, weekday, daysFromCivil]
  omega

theorem ruleDay_CET (Y : Nat) :
    ruleDay CET Y = daysFromCivil Y Oct (31 - (daysFromCivil Y Oct 31 + 4) % 7) ∧
    weekday (daysFromCivil Y Oct (31 - (daysFromCivil Y Oct 31 + 4) % 7)) = Sun := by
  have hm : daysInMonth Y 10 = 31 := rfl
  simp only [ruleDay, CET, Oct, Sun, hm, weekday, daysFromCivil]
  omega

theorem toLocal_of_year (Y : Nat) (utc : Int) (a b : Int) (hy : yearOf utc = Y)
    (ha : transitionUTC CEST CET Y = a) (hb : transitionUTC CET CEST Y = b)
    (hab : a ≤ b) :
    toLocal CE utc = utc + (if a ≤ utc ∧ utc < b then 7200 else 3600) := by
  simp only [toLocal, utcIsDST, CE, hy, ha, hb, if_pos hab]
  by_cases h : a ≤ utc ∧ utc < b
  · simp [h, CEST]
  · simp [h, CET]

theorem yearLoop_bounds (fuel : Nat) :
    ∀ y days : Nat,
      y ≤ (yearLoop fuel y days).1 ∧ (yearLoop fuel y days).1 ≤ y + days / 365 := by
  induction fuel with
  | zero => intro y days; simp [yearLoop]
  | succ f ih =>
      intro y days
      rw [yearLoop]
      split
      · simp
      · rename_i h
        have h1 := ih (y + 1) (days - daysInYear y)
        rcases daysInYear_cases y with hd | hd <;> rw [hd] at h h1 ⊢ <;> omega

theorem decimalLoop_ge (fuel n : Nat) (acc : List Nat) (h : 10 ≤ n) :
    decimalLoop (fuel + 1) n acc = decimalLoop fuel (n / 10) ((48 + n % 10) :: acc) := by
  rw [decimalLoop, if_neg (by omega)]

theorem decimalLoop_lt (fuel n : Nat) (acc : List Nat) (h : n < 10) :
    decimalLoop (fuel + 1) n acc = (48 + n) :: acc := by
  rw [decimalLoop, if_pos h]

theorem decimal_four (n : Nat) (h1 : 1000 ≤ n) (h2 : n < 10000) :
    decimal n = [48 + n / 10 / 10 / 10, 48 + n / 10 / 10 % 10, 48 + n / 10 % 10, 48 + n % 10] := by
  unfold decimal
  have hf : n + 1 = (n - 3) + 1 + 1 + 1 + 1 := by omega
  rw [hf, decimalLoop_ge _ _ _ (by omega), decimalLoop_ge _ _ _ (by omega),
    decimalLoop_ge _ _ _ (by omega), decimalLoop_lt _ _ _ (by omega)]

theorem timeString_digits (t : Int) (h0 : 0 ≤ t) (h1 : t < 2 ^ 31) :
    (charAt (getEpochStringByParams t) 11 : Int) - 48
        = ((getDateTimeByParams t).tm_hour / 10 : Nat) ∧
    (charAt (getEpochStringByParams t) 12 : Int) - 48
        = ((getDateTimeByParams t).tm_hour % 10 : Nat) ∧
    (charAt (getEpochStringByParams t) 14 : Int) - 48
        = ((getDateTimeByParams t).tm_min / 10 : Nat) ∧
    (charAt (getEpochStringByParams t) 15 : Int) - 48
        = ((getDateTimeByParams t).tm_min % 10 : Nat) := by
  have hb := yearLoop_bounds (t.toNat / 86400 / 365 + 1) 1970 (t.toNat / 86400)
  have hdays : t.toNat / 86400 / 365 ≤ 68 := by
    have : t.toNat < 2147483648 := by
      have : (2 : Int) ^ 31 = 2147483648 := by norm_num
      omega
    omega
  have hyear : (getDateTimeByParams t).tm_year + 1900
      = (yearAndDay (t.toNat / 86400)).1 := by
    simp only [getDateTimeByParams, yearAndDay]
    omega
  have hdec := decimal_four ((yearAndDay (t.toNat / 86400)).1)
    (by simp only [yearAndDay]; omega) (by simp only [yearAndDay]; omega)
  have hH : (getDateTimeByParams t).tm_hour < 24 := by
    simp only [getDateTimeByParams]; omega
  have hM : (getDateTimeByParams t).tm_min < 60 := by
    simp only [getDateTimeByParams]; omega
  simp only [getEpochStringByParams, getDateTimeStringByParams, hyear, hdec, pad2, charAt]
  simp
  omega


/-! ## The digit table -/

/-- C1: every row `cijfer[d]`, `d` in 0..9, has ten entries of which exactly
one is true, namely the one at index `9 - wiringBit d` (index 0 is bit 9), where
`wiringBit` is the literal table 0->0, 1->5, 2->4, 3->6, 4->3, 5->7, 6->2,
7->8, 8->1, 9->9; and `wiringBit` is a bijection on 0..9. -/
theorem cijfer_one_hot_wiring :
    (∀ d : Fin 10,
      (cijferRow d.val).length = 10 ∧
      (cijferRow d.val).count true = 1 ∧
      (∀ i : Fin 10, cijferAt d.val i.val = true ↔ i.val = 9 - wiringBit d.val)) ∧
    (List.range 10).map wiringBit = [0, 5, 4, 6, 3, 7, 2, 8, 1, 9] ∧
    (∀ d : Fin 10, wiringBit d.val < 10) ∧
    (∀ d e : Fin 10, wiringBit d.val = wiringBit e.val → d = e) ∧
    (∀ b : Fin 10, ∃ d : Fin 10, wiringBit d.val = b.val) := by
  decide


/-! ## The display refresh -/

/-- C2 (as amended): whenever the local time is within the range of the 32-bit
`long` handed to the formatter, with hour `H` (0..23) and minute `M` (0..59),
`display_time` makes exactly four `displayDigit` calls whose arguments are, in
call order, minute-ones `M % 10`, minute-tens `M / 10`, hour-ones `H % 10`,
hour-tens `H / 10`. -/
theorem display_time_digit_order (s : State)
    (h0 : 0 ≤ toLocal CE (now s)) (h1 : toLocal CE (now s) < 2 ^ 31) :
    digitCalls (newEvents s (display_time s))
      = [(((getDateTimeByParams (toLocal CE (now s))).tm_min % 10 : Nat) : Int),
         (((getDateTimeByParams (toLocal CE (now s))).tm_min / 10 : Nat) : Int),
         (((getDateTimeByParams (toLocal CE (now s))).tm_hour % 10 : Nat) : Int),
         (((getDateTimeByParams (toLocal CE (now s))).tm_hour / 10 : Nat) : Int)] ∧
    (getDateTimeByParams (toLocal CE (now s))).tm_hour < 24 ∧
    (getDateTimeByParams (toLocal CE (now s))).tm_min < 60 := by
  obtain ⟨h11, h12, h14, h15⟩ := timeString_digits (toLocal CE (now s)) h0 h1
  refine ⟨?_, ?_, ?_⟩
  · rw [display_time_calls]
    simp only [timeDigit, h11, h12, h14, h15]
  · simp only [getDateTimeByParams]; omega
  · simp only [getDateTimeByParams]; omega

/-- Witness for C2: 14 November 2023, 11:34:00 UTC, local time 12:34. -/
theorem display_time_digit_order_witness :
    digitCalls
        (newEvents { boot HIGH LOW LOW with current_utc := 1699961640 }
          (display_time { boot HIGH LOW LOW with current_utc := 1699961640 }))
      = [4, 3, 2, 1] :=
  (display_time_digit_order { boot HIGH LOW LOW with current_utc := 1699961640 }
    (by decide) (by decide)).1.trans (by decide)

/-- Counterexample for C2 as stated: at local time 12:34 the four calls are not
(1, 2, 3, 4); they are (4, 3, 2, 1). -/
theorem display_time_order_counterexample :
    (getDateTimeByParams (toLocal CE 1699961640)).tm_hour = 12 ∧
    (getDateTimeByParams (toLocal CE 1699961640)).tm_min = 34 ∧
    digitCalls
        (newEvents { boot HIGH LOW LOW with current_utc := 1699961640 }
          (display_time { boot HIGH LOW LOW with current_utc := 1699961640 }))
      ≠ [1, 2, 3, 4] := by
  refine ⟨by decide, by decide, ?_⟩
  rw [display_time_calls]
  decide


/-! ## The shift-register protocol -/

/-- C3: for every digit `d` in 0..9 and every state, `displayDigit d` appends to
the trace its call marker followed by exactly 32 pin writes: latch LOW; for
`i = 0, ..., 9` in increasing order data := `cijfer[d][i]`, clock HIGH, clock
LOW; latch HIGH. It leaves the clock line LOW, and the clock line is LOW in
every state reached by `setup` followed by `loop` passes. Entered with the clock
line LOW, the call produces exactly ten rising clock edges between the latch
writes, and the data levels sampled at them are the row `cijfer[d]` in order. -/
theorem displayDigit_protocol (d : Fin 10) (s : State) :
    (displayDigit d.val s).trace =
        s.trace ++ Event.displayDigit d.val ::
          ([Event.digitalWrite Pin.latchPin LOW]
            ++ (List.range 10).flatMap (fun i =>
                [Event.digitalWrite Pin.dataPin (cijferAt d.val i),
                 Event.digitalWrite Pin.clockPin HIGH,
                 Event.digitalWrite Pin.clockPin LOW])
            ++ [Event.digitalWrite Pin.latchPin HIGH]) ∧
    (newEvents s (displayDigit d.val s)).filter Event.isBusWrite = digitWrites d.val ∧
    (digitWrites d.val).length = 32 ∧
    (displayDigit d.val s).clock = LOW ∧
    (∀ (b : SetupInput) (s0 : State) (inputs : List LoopInput),
      (run inputs (setup b s0)).clock = LOW) ∧
    (s.clock = LOW →
      risingEdgeSamples s.clock s.data (newEvents s (displayDigit d.val s))
          = cijferRow d.val ∧
      (risingEdgeSamples s.clock s.data (newEvents s (displayDigit d.val s))).length
          = 10) := by
  have hnew : newEvents s (displayDigit d.val s)
      = Event.displayDigit d.val :: digitWrites d.val :=
    newEvents_append _ _ _ (by rw [displayDigit_eq])
  refine ⟨?_, ?_, ?_, ?_, ?_, ?_⟩
  · rw [displayDigit_eq]; rfl
  · rw [hnew]
    simp [digitWrites, bitWrites, range_ten, Event.isBusWrite]
  · simp [digitWrites, bitWrites, range_ten]
  · rw [displayDigit_eq]
  · intro b s0 inputs
    exact run_clock inputs (setup b s0) (setup_clock b s0)
  · intro hclk
    rw [hnew, hclk]
    have hrow : risingEdgeSamples LOW s.data (Event.displayDigit d.val :: digitWrites d.val)
        = (List.range 10).map (cijferAt d.val) := by
      simp [digitWrites, bitWrites, range_ten, risingEdgeSamples]
    rw [hrow, cijferRow_eq_map d]
    exact ⟨rfl, cijferRow_length d⟩

/-- Witness for C3: digit 3 pushed from the boot state with all lines LOW. -/
theorem displayDigit_protocol_witness :
    risingEdgeSamples LOW LOW
        (newEvents (boot LOW LOW LOW) (displayDigit 3 (boot LOW LOW LOW)))
      = [false, false, false, true, false, false, false, false, false, false] :=
  ((displayDigit_protocol 3 (boot LOW LOW LOW)).2.2.2.2.2 rfl).1


/-! ## Timer arithmetic -/

/-- C4 (as amended): for a `w`-bit counter, every last-fired `L` and every true
elapsed time `e` below `2 ^ w`, with `now = (L + e) mod 2 ^ w` the wrapped
difference `now - L` is `e`, so the firing test holds exactly when
`interval ≤ e` (in particular for 60000 and 120000, also when `now < L`).
On a 16-bit counter with last-fired = 65535 - 500 and now = 600 the difference
is 1101 (it is 1100 for last-fired = 65536 - 500), and the timer with interval
1000 fires. -/
theorem timer_correct_across_wrap (w L e interval : Nat)
    (hL : L < 2 ^ w) (he : e < 2 ^ w) :
    unsignedSub w ((L + e) % 2 ^ w) L = e ∧
    (timerFires w ((L + e) % 2 ^ w) L interval = true ↔ interval ≤ e) ∧
    (timerFires w ((L + e) % 2 ^ w) L interval_time = true ↔ 60000 ≤ e) ∧
    (timerFires w ((L + e) % 2 ^ w) L interval_ntp = true ↔ 120000 ≤ e) ∧
    unsignedSub 16 600 (65535 - 500) = 1101 ∧
    unsignedSub 16 600 (65536 - 500) = 1100 ∧
    timerFires 16 600 (65535 - 500) 1000 = true := by
  have h := unsignedSub_add w L e hL he
  refine ⟨h, ?_, ?_, ?_, by decide, by decide, by decide⟩ <;>
    simp [timerFires, h, interval_time, interval_ntp]

/-- Witness for C4: the 32-bit counter wrapping between last-fired and now. -/
theorem timer_correct_across_wrap_witness :
    (4294967000 + 60500) % 2 ^ 32 < 4294967000 ∧
    timerFires 32 ((4294967000 + 60500) % 2 ^ 32) 4294967000 interval_time = true :=
  ⟨by decide,
   ((timer_correct_across_wrap 32 4294967000 60500 interval_time
      (by decide) (by decide)).2.1).2 (by decide)⟩

/-- Counterexample for C4 as stated: with last-fired = max-value - 500 on a
16-bit counter (max-value 65535) and now = 600 the elapsed time is not 1100. -/
theorem timer_instance_counterexample :
    unsignedSub 16 600 (2 ^ 16 - 1 - 500) ≠ 1100 ∧
    unsignedSub 16 600 (2 ^ 16 - 1 - 500) = 1101 := by
  decide


/-! ## Resynchronisation -/

/-- C5: a resync attempt whose fetch fails leaves `current_utc`, both timers and
the three bus lines as they were, and appends only serial prints, the time
client calls and the settling delay: no `displayDigit` call and no pin write.
Any resync attempt calls `setTime` at most once, exactly when the fetch
succeeds, and `current_utc` afterwards is the fetched epoch on success and the
prior value on failure. -/
theorem update_NTP_failure_keeps_time (s : State) (fetch : Option Nat) :
    (update_NTP none s).current_utc = s.current_utc ∧
    (update_NTP none s).trace = s.trace ++
      [Event.serial, Event.serial, Event.ntpBegin, Event.delay 1000,
       Event.ntpUpdate false, Event.serial] ∧
    digitCalls (newEvents s (update_NTP none s)) = [] ∧
    (newEvents s (update_NTP none s)).filter Event.isBusWrite = [] ∧
    ((update_NTP none s).latch = s.latch ∧ (update_NTP none s).data = s.data ∧
      (update_NTP none s).clock = s.clock) ∧
    ((newEvents s (update_NTP fetch s)).filter Event.isSetTime).length ≤ 1 ∧
    (((newEvents s (update_NTP fetch s)).filter Event.isSetTime).length = 1
      ↔ fetch.isSome = true) ∧
    (update_NTP fetch s).current_utc =
      (match fetch with
       | some epoch => (epoch : Int)
       | none => s.current_utc) := by
  have hn : ∀ f, newEvents s (update_NTP f s) = ntpEvents f := fun f =>
    newEvents_append _ _ _ (by rw [update_NTP_eq])
  refine ⟨?_, ?_, ?_, ?_, ?_, ?_, ?_, ?_⟩
  · rw [update_NTP_eq]
  · rw [update_NTP_eq]; rfl
  · rw [hn]; rfl
  · rw [hn]; rfl
  · rw [update_NTP_eq]; exact ⟨rfl, rfl, rfl⟩
  · rw [hn]; cases fetch <;> simp [ntpEvents, Event.isSetTime]
  · rw [hn]; cases fetch <;> simp [ntpEvents, Event.isSetTime]
  · rw [update_NTP_eq]


/-! ## A fixed instant end to end -/

/-- C6 (as amended): the epoch 1700000000 is 14-11-2023 22:13:20 UTC; with the
Central-European rule pair standard time is in effect, the local offset is +60
minutes and the local time is 23:13:20; a display refresh with `current_utc` at
that epoch pushes the digits in the order (3, 1, 3, 2): minute-ones,
minute-tens, hour-ones, hour-tens. -/
theorem epoch_1700000000_display (s : State) :
    getDateTimeByParams 1700000000
      = { tm_sec := 20, tm_min := 13, tm_hour := 22,
          tm_mday := 14, tm_mon := 10, tm_year := 123 } ∧
    utcIsDST CE 1700000000 = false ∧
    toLocal CE 1700000000 = 1700000000 + 60 * 60 ∧
    getDateTimeByParams (toLocal CE 1700000000)
      = { tm_sec := 20, tm_min := 13, tm_hour := 23,
          tm_mday := 14, tm_mon := 10, tm_year := 123 } ∧
    digitCalls
        (newEvents { s with current_utc := 1700000000 }
          (display_time { s with current_utc := 1700000000 }))
      = [3, 1, 3, 2] := by
  refine ⟨by decide, by decide, by decide, by decide, ?_⟩
  rw [display_time_calls]
  simp only [timeDigit, now]
  decide

/-- Counterexample for C6 as stated: with `current_utc` = 1700000000 the digits
are not pushed in the order (2, 3, 1, 3). -/
theorem epoch_1700000000_order_counterexample :
    digitCalls
        (newEvents { boot HIGH LOW LOW with current_utc := 1700000000 }
          (display_time { boot HIGH LOW LOW with current_utc := 1700000000 }))
      ≠ [2, 3, 1, 3] := by
  rw [display_time_calls]
  decide


/-! ## Daylight-saving transitions -/

/-- C7: for every year `Y` from 1970 on and the configured rule pair, the last
Sunday of March (day `d` of the month, 25 ≤ d ≤ 31) at 01:00 UTC is the
daylight transition `T` of `Y`, with `toLocal T = T + 7200` and
`toLocal (T - 1) = (T - 1) + 3600`; and the last Sunday of October (day `d'`)
at 01:00 UTC is the standard transition `T'`, with `toLocal T' = T' + 3600` and
`toLocal (T' - 1) = (T' - 1) + 7200`. -/
theorem toLocal_at_transitions (Y : Nat) (hY : 1970 ≤ Y) :
    ∃ d d' : Nat,
      (25 ≤ d ∧ d ≤ 31 ∧ weekday (daysFromCivil Y Mar d) = Sun) ∧
      (25 ≤ d' ∧ d' ≤ 31 ∧ weekday (daysFromCivil Y Oct d') = Sun) ∧
      transitionUTC CEST CET Y = (daysFromCivil Y Mar d : Int) * 86400 + 3600 ∧
      transitionUTC CET CEST Y = (daysFromCivil Y Oct d' : Int) * 86400 + 3600 ∧
      toLocal CE ((daysFromCivil Y Mar d : Int) * 86400 + 3600)
        = ((daysFromCivil Y Mar d : Int) * 86400 + 3600) + 7200 ∧
      toLocal CE ((daysFromCivil Y Mar d : Int) * 86400 + 3600 - 1)
        = ((daysFromCivil Y Mar d : Int) * 86400 + 3600 - 1) + 3600 ∧
      toLocal CE ((daysFromCivil Y Oct d' : Int) * 86400 + 3600)
        = ((daysFromCivil Y Oct d' : Int) * 86400 + 3600) + 3600 ∧
      toLocal CE ((daysFromCivil Y Oct d' : Int) * 86400 + 3600 - 1)
        = ((daysFromCivil Y Oct d' : Int) * 86400 + 3600 - 1) + 7200 := by
  obtain ⟨hrd, hsun⟩ := ruleDay_CEST Y
  obtain ⟨hrd', hsun'⟩ := ruleDay_CET Y
  generalize hd : 31 - (daysFromCivil Y Mar 31 + 4) % 7 = d at hrd hsun
  generalize hd' : 31 - (daysFromCivil Y Oct 31 + 4) % 7 = d' at hrd' hsun'
  have hdr : 25 ≤ d ∧ d ≤ 31 := by omega
  have hdr' : 25 ≤ d' ∧ d' ≤ 31 := by omega
  have hT : transitionUTC CEST CET Y = (daysFromCivil Y Mar d : Int) * 86400 + 3600 := by
    have h1 : ((CEST.hour : Nat) : Int) = 2 := rfl
    have h2 : CET.offset = 60 := rfl
    unfold transitionUTC
    rw [hrd, h1, h2]
    omega
  have hT' : transitionUTC CET CEST Y = (daysFromCivil Y Oct d' : Int) * 86400 + 3600 := by
    have h1 : ((CET.hour : Nat) : Int) = 3 := rfl
    have h2 : CEST.offset = 120 := rfl
    unfold transitionUTC
    rw [hrd', h1, h2]
    omega
  -- both dates lie inside year `Y`
  have hyl := daysInYear_cases Y
  have hmar : daysFromCivil Y Mar d = daysBeforeYear Y + (daysBeforeMonth Y 3 + (d - 1)) := by
    simp only [daysFromCivil, Mar]; omega
  have hoct : daysFromCivil Y Oct d' = daysBeforeYear Y + (daysBeforeMonth Y 10 + (d' - 1)) := by
    simp only [daysFromCivil, Oct]; omega
  have hm3 := daysBeforeMonth_mar Y
  have hm10 := daysBeforeMonth_oct Y
  have hleap : daysInYear Y = if isLeapYear Y then 366 else 365 := rfl
  have hr : daysBeforeMonth Y 3 + (d - 1) < daysInYear Y := by
    rw [hm3, hleap]; split <;> omega
  have hr' : daysBeforeMonth Y 10 + (d' - 1) < daysInYear Y := by
    rw [hm10, hleap]; split <;> omega
  have hlt : daysFromCivil Y Mar d < daysFromCivil Y Oct d' := by
    rw [hmar, hoct, hm3, hm10]; split <;> omega
  have hy1 : yearOf ((daysFromCivil Y Mar d : Int) * 86400 + 3600) = Y := by
    rw [hmar]; exact yearOf_spec Y _ 3600 hY hr (by omega)
  have hy2 : yearOf ((daysFromCivil Y Mar d : Int) * 86400 + 3600 - 1) = Y := by
    have h := yearOf_spec Y _ 3599 hY hr (by omega)
    rw [← hmar] at h
    have hc : (daysFromCivil Y Mar d : Int) * 86400 + 3600 - 1
        = (daysFromCivil Y Mar d : Int) * 86400 + ((3599 : Nat) : Int) := by omega
    rw [hc]; exact h
  have hy3 : yearOf ((daysFromCivil Y Oct d' : Int) * 86400 + 3600) = Y := by
    rw [hoct]; exact yearOf_spec Y _ 3600 hY hr' (by omega)
  have hy4 : yearOf ((daysFromCivil Y Oct d' : Int) * 86400 + 3600 - 1) = Y := by
    have h := yearOf_spec Y _ 3599 hY hr' (by omega)
    rw [← hoct] at h
    have hc : (daysFromCivil Y Oct d' : Int) * 86400 + 3600 - 1
        = (daysFromCivil Y Oct d' : Int) * 86400 + ((3599 : Nat) : Int) := by omega
    rw [hc]; exact h
  have hab : (daysFromCivil Y Mar d : Int) * 86400 + 3600
      ≤ (daysFromCivil Y Oct d' : Int) * 86400 + 3600 := by omega
  refine ⟨d, d', ⟨hdr.1, hdr.2, hsun⟩, ⟨hdr'.1, hdr'.2, hsun'⟩, hT, hT', ?_, ?_, ?_, ?_⟩
  · rw [toLocal_of_year Y _ _ _ hy1 hT hT' hab, if_pos (by omega)]
  · rw [toLocal_of_year Y _ _ _ hy2 hT hT' hab, if_neg (by omega)]
  · rw [toLocal_of_year Y _ _ _ hy3 hT hT' hab, if_neg (by omega)]
  · rw [toLocal_of_year Y _ _ _ hy4 hT hT' hab, if_pos (by omega)]

/-- Witness for C7: the year 2023, whose transitions fall on 26 March and
29 October at 01:00 UTC (the instants 1679792400 and 1698541200). -/
theorem toLocal_at_transitions_witness :
    toLocal CE 1679792400 = 1679792400 + 7200 ∧
    toLocal CE (1679792400 - 1) = (1679792400 - 1) + 3600 ∧
    toLocal CE 1698541200 = 1698541200 + 3600 ∧
    toLocal CE (1698541200 - 1) = (1698541200 - 1) + 7200 := by
  obtain ⟨d, d', ⟨h1, h2, h3⟩, ⟨h4, h5, h6⟩, -, -, ha, hb, hc, he⟩ :=
    toLocal_at_transitions 2023 (by omega)
  have hd : d = 26 := by
    interval_cases d <;> first | rfl | (exfalso; revert h3; decide)
  have hd' : d' = 29 := by
    interval_cases d' <;> first | rfl | (exfalso; revert h6; decide)
  subst hd hd'
  have e1 : (daysFromCivil 2023 Mar 26 : Int) * 86400 + 3600 = 1679792400 := by decide
  have e2 : (daysFromCivil 2023 Oct 29 : Int) * 86400 + 3600 = 1698541200 := by decide
  rw [e1] at ha hb
  rw [e2] at hc he
  exact ⟨ha, hb, hc, he⟩


/-! ## The scheduler loop -/

/-- C8: in every pass of `loop`, whatever the state, the clock reading and the
fetch outcome, the first event is `ArduinoOTA.handle()`, the second is the
`millis()` reading, and no other maintenance call occurs in the pass, so it
precedes every display and resync action. The events of a pass are, in order:
the maintenance call, the clock reading, the display refresh if its timer test
holds, the unconditional latch write, the resync if its timer test holds. When
both tests hold, everything `display_time` does (four `displayDigit` calls, 128
pin writes, no resync event) comes before everything `update_NTP` does, which
starts with two prints, `timeClient.begin()`, the settling `delay(1000)` and
`timeClient.update()`, and contains no `displayDigit` call and no pin write. -/
theorem loop_order (inp : LoopInput) (s : State) :
    (loop inp s).trace = s.trace ++ newEvents s (loop inp s) ∧
    (newEvents s (loop inp s)).take 2
      = [Event.otaHandle, Event.millis inp.currentMillis] ∧
    (newEvents s (loop inp s)).filter Event.isOtaHandle = [Event.otaHandle] ∧
    newEvents s (loop inp s)
      = Event.otaHandle :: Event.millis inp.currentMillis ::
          ((if timerFires 32 inp.currentMillis s.previousMillis_time interval_time
            then Event.serial :: newEvents s (display_time s) else [])
           ++ Event.digitalWrite Pin.latchPin HIGH ::
             (if timerFires 32 inp.currentMillis s.previousMillis_ntp interval_ntp
              then ntpEvents inp.fetch else [])) ∧
    (∀ t : State, newEvents t (update_NTP inp.fetch t) = ntpEvents inp.fetch) ∧
    (timerFires 32 inp.currentMillis s.previousMillis_time interval_time = true →
     timerFires 32 inp.currentMillis s.previousMillis_ntp interval_ntp = true →
      newEvents s (loop inp s)
        = (Event.otaHandle :: Event.millis inp.currentMillis :: Event.serial ::
            (newEvents s (display_time s) ++ [Event.digitalWrite Pin.latchPin HIGH]))
          ++ ntpEvents inp.fetch ∧
      digitCalls (newEvents s (display_time s))
        = [timeDigit s 15, timeDigit s 14, timeDigit s 12, timeDigit s 11] ∧
      ((newEvents s (display_time s)).filter Event.isBusWrite).length = 4 * 32 ∧
      (Event.otaHandle :: Event.millis inp.currentMillis :: Event.serial ::
          (newEvents s (display_time s)
            ++ [Event.digitalWrite Pin.latchPin HIGH])).filter Event.isResync = [] ∧
      (ntpEvents inp.fetch).take 5
        = [Event.serial, Event.serial, Event.ntpBegin, Event.delay 1000,
           Event.ntpUpdate inp.fetch.isSome] ∧
      digitCalls (ntpEvents inp.fetch) = [] ∧
      (ntpEvents inp.fetch).filter Event.isBusWrite = []) := by
  have hnew := newEvents_append s (loop inp s) _ (by rw [loop_eq])
  have hdisp : newEvents s (display_time s) = displayEvents s :=
    newEvents_append _ _ _ (by rw [display_time_eq])
  refine ⟨?_, ?_, ?_, ?_, ?_, ?_⟩
  · rw [hnew, loop_eq]
  · rw [hnew]; rfl
  · rw [hnew]
    by_cases ha : timerFires 32 inp.currentMillis s.previousMillis_time interval_time = true <;>
    by_cases hb : timerFires 32 inp.currentMillis s.previousMillis_ntp interval_ntp = true <;>
    simp [ha, hb, Event.isOtaHandle, ota_displayEvents, ota_ntpEvents]
  · rw [hnew, hdisp]
  · intro t
    exact newEvents_append _ _ _ (by rw [update_NTP_eq])
  · intro ha hb
    rw [hnew, hdisp]
    refine ⟨?_, ?_, ?_, ?_, ?_, ?_, ?_⟩
    · simp [ha, hb]
    · exact digitCalls_displayEvents s
    · simp [busWrites_displayEvents]
    · simp [Event.isResync, resync_displayEvents]
    · cases inp.fetch <;> rfl
    · exact digitCalls_ntpEvents inp.fetch
    · exact busWrites_ntpEvents inp.fetch

/-- Witness for C8: the first pass after boot at clock reading 120000 with a
failing fetch, where both timer tests hold. -/
theorem loop_order_witness :
    timerFires 32 120000 0 interval_time = true ∧
    timerFires 32 120000 0 interval_ntp = true ∧
    newEvents (boot HIGH LOW LOW) (loop ⟨120000, none⟩ (boot HIGH LOW LOW))
      = (Event.otaHandle :: Event.millis 120000 :: Event.serial ::
          (newEvents (boot HIGH LOW LOW) (display_time (boot HIGH LOW LOW))
            ++ [Event.digitalWrite Pin.latchPin HIGH]))
        ++ [Event.serial, Event.serial, Event.ntpBegin, Event.delay 1000,
            Event.ntpUpdate false, Event.serial] :=
  ⟨by decide, by decide,
   ((loop_order ⟨120000, none⟩ (boot HIGH LOW LOW)).2.2.2.2.2
      (by decide) (by decide)).1⟩

/-- C9: after one pass of `loop` with clock reading `c`, `previousMillis_ntp` is
`c` if the resync test held and unchanged otherwise, whatever the fetch
delivered; `previousMillis_time` is `c` if the display test held and unchanged
otherwise; each test reads only its own timer, so neither firing touches the
other's last-fired; and the pass reads the clock exactly once. -/
theorem loop_timer_frame (inp : LoopInput) (s : State) :
    (loop inp s).previousMillis_ntp =
      (if timerFires 32 inp.currentMillis s.previousMillis_ntp interval_ntp
       then inp.currentMillis else s.previousMillis_ntp) ∧
    (loop inp s).previousMillis_time =
      (if timerFires 32 inp.currentMillis s.previousMillis_time interval_time
       then inp.currentMillis else s.previousMillis_time) ∧
    (∀ fetch : Option Nat,
      (loop { inp with fetch := fetch } s).previousMillis_ntp
        = (loop inp s).previousMillis_ntp ∧
      (loop { inp with fetch := fetch } s).previousMillis_time
        = (loop inp s).previousMillis_time) ∧
    (newEvents s (loop inp s)).filter Event.isMillis = [Event.millis inp.currentMillis] := by
  refine ⟨?_, ?_, ?_, ?_⟩
  · rw [loop_eq]
  · rw [loop_eq]
  · intro fetch
    rw [loop_eq, loop_eq]
    exact ⟨rfl, rfl⟩
  · rw [newEvents_append s (loop inp s) _ (by rw [loop_eq])]
    by_cases ha : timerFires 32 inp.currentMillis s.previousMillis_time interval_time = true <;>
    by_cases hb : timerFires 32 inp.currentMillis s.previousMillis_ntp interval_ntp = true <;>
    cases hf : inp.fetch <;>
    simp [ha, hb, hf, Event.isMillis, displayEvents, millis_digitEvents, ntpEvents]

/-- C10: in every state reached from boot (`setup` from any prior state,
followed by any number of `loop` passes with any clock readings and fetch
outcomes) the latch line is HIGH, and it is still HIGH when the next pass
reaches the unconditional latch write, so that write changes the level of no
bus line. The latch is HIGH at the end of `setup`, of every `displayDigit` call
and of every `loop` pass. -/
theorem latch_write_inert (b : SetupInput) (s0 : State) (inputs : List LoopInput)
    (inp : LoopInput) :
    (setup b s0).latch = HIGH ∧
    (∀ (d : Int) (t : State), (displayDigit d t).latch = HIGH) ∧
    (run inputs (setup b s0)).latch = HIGH ∧
    (loopBeforeLatch inp (run inputs (setup b s0))).latch = HIGH ∧
    (digitalWrite Pin.latchPin HIGH
        (loopBeforeLatch inp (run inputs (setup b s0)))).latch
      = (loopBeforeLatch inp (run inputs (setup b s0))).latch ∧
    (digitalWrite Pin.latchPin HIGH
        (loopBeforeLatch inp (run inputs (setup b s0)))).data
      = (loopBeforeLatch inp (run inputs (setup b s0))).data ∧
    (digitalWrite Pin.latchPin HIGH
        (loopBeforeLatch inp (run inputs (setup b s0)))).clock
      = (loopBeforeLatch inp (run inputs (setup b s0))).clock ∧
    (loop inp (run inputs (setup b s0))).latch = HIGH := by
  have hrun := run_latch inputs (setup b s0) (setup_latch b s0)
  have hpre := loopBeforeLatch_latch inp _ hrun
  refine ⟨setup_latch b s0, ?_, hrun, hpre, ?_, ?_, ?_, ?_⟩
  · intro d t; rw [displayDigit_eq]
  · rw [hpre]; rfl
  · rfl
  · rfl
  · rw [loop_eq]

end EdgeLit
